import Mathlib

/-!
Verification development for the cluster-permutation statistics engine in
src/eelbrain/data/testnd/testnd.py (class `_ClusterDist` and the statistic
drivers).  The engine is embedded shallowly:

* numpy float arrays become `List ℚ` (exact arithmetic; the algorithms use
  only comparisons, sums, max and division) or, where a square root is
  required (`_t_ind`, `ttest_1samp`), functions into `ℝ`;
* the accumulator works on the 1-D (time-only, all-adjacent) instance of the
  maps, and the connectivity-merge step of `_label_clusters_1tailed` is
  embedded separately on its 2-D (graph-axis × flattened-rest) working shape,
  exactly as the source reshapes the data before calling it;
* Python exceptions become `Except` errors; numpy negative indexing is
  modelled explicitly.
-/

deriving instance DecidableEq for Except

namespace Eelbrain

/-- Error outcomes of the `_ClusterDist` methods (Python exceptions). -/
inductive CDErr where
  /-- ValueError raised by the threshold checks, testnd.py lines 692-702 -/
  | invalidThreshold
  /-- NotImplementedError for nonzero close_time, line 706 -/
  | notImplemented
  /-- RuntimeError "Original pmap already added", line 950 -/
  | originalAlreadyAdded
  /-- RuntimeError "Too many permutations added to _ClusterDist", line 765 -/
  | tooManyPermutations
  /-- access to an attribute that was never assigned (Python AttributeError) -/
  | attributeError
  /-- UnboundLocalError: in `_label_clusters` the local `cmap` is never
      assigned when both thresholds are None (lines 856-872) -/
  | unboundLocal
  /-- numpy IndexError on an out-of-bounds index -/
  | indexError
  deriving DecidableEq

/-- `scipy.ndimage.label` on a 1-D boolean array labels maximal runs of True
with ids 1, 2, ... in scan order.  `prev` records whether the previous element
was True, `n` is the id counter (id of the current run once inside one). -/
def label1DAux : List Bool → Bool → ℕ → List ℕ × ℕ
  | [], _, n => ([], n)
  | b :: bs, prev, n =>
    if b then
      let m := if prev then n else n + 1
      (m :: (label1DAux bs true m).1, (label1DAux bs true m).2)
    else
      (0 :: (label1DAux bs false n).1, (label1DAux bs false n).2)

/-- `scipy.ndimage.label(bin_map)` for 1-D input: label image and number of
clusters (line 895). -/
def label1D (bm : List Bool) : List ℕ × ℕ := label1DAux bm false 0

/-- Offsets of the 1-D structuring element `np.ones(w)` relative to its
center (scipy origin convention). -/
def structOffsets (w : ℕ) : List ℤ := (List.range w).map (fun k => (k : ℤ) - (w / 2 : ℕ))

/-- `scipy.ndimage.binary_dilation` with structure `np.ones(w)`,
border_value 0.  (Dead code in the source: `self._close` is assigned only
after an unconditional `raise NotImplementedError`, line 706-708.) -/
def binaryDilation (bm : List Bool) (w : ℕ) : List Bool :=
  (List.range bm.length).map (fun p =>
    (structOffsets w).any (fun d =>
      let j := (p : ℤ) + d
      if 0 ≤ j ∧ j < (bm.length : ℤ) then bm.getD j.toNat false else false))

/-- `scipy.ndimage.binary_erosion` with structure `np.ones(w)`, border_value 0. -/
def binaryErosion (bm : List Bool) (w : ℕ) : List Bool :=
  (List.range bm.length).map (fun p =>
    (structOffsets w).all (fun d =>
      let j := (p : ℤ) + d
      if 0 ≤ j ∧ j < (bm.length : ℤ) then bm.getD j.toNat false else false))

/-- `scipy.ndimage.binary_closing` = erosion of the dilation. -/
def binaryClosing (bm : List Bool) (w : ℕ) : List Bool :=
  binaryErosion (binaryDilation bm w) w

/-- The morphology preprocessing at the top of `_label_clusters_1tailed`
(lines 889-891): `bin_map = bin_map | binary_closing(bin_map, self._close)`
when `self._close` is not None; the raw map otherwise.  `close` holds the
length of the structuring element `np.ones(...)`. -/
def preClose (close : Option ℕ) (bm : List Bool) : List Bool :=
  match close with
  | some w => List.zipWith or bm (binaryClosing bm w)
  | none => bm

/-- `_ClusterDist._label_clusters_1tailed` in the all-adjacent case
(lines 889-896), for 1-D maps: `cmap, n = ndimage.label(bin_map)` and cluster
ids `set(xrange(1, n + 1))` (kept as an ascending list). -/
def labelClusters1Tailed (close : Option ℕ) (bm : List Bool) : List ℕ × List ℕ :=
  let r := label1D (preClose close bm)
  (r.1, List.range' 1 r.2)

/-- `_ClusterDist._label_clusters` (lines 840-872) for 1-D maps: label the
`pmap > t_upper` mask and the `pmap < t_lower` mask independently, offset the
lower-mask labels by `cmap.max()` of the upper pass at the below-threshold
points (`cmap_l[bin_map_below] += x`), sum the label images and union the id
sets.  With both thresholds None the Python local `cmap` is never assigned
and the function raises UnboundLocalError. -/
def labelClusters (close : Option ℕ) (tUpper tLower : Option ℚ) (pmap : List ℚ) :
    Except CDErr (List ℕ × List ℕ) :=
  match tUpper, tLower with
  | none, none => Except.error CDErr.unboundLocal
  | some tu, none =>
    Except.ok (labelClusters1Tailed close (pmap.map (fun v => decide (tu < v))))
  | none, some tl =>
    Except.ok (labelClusters1Tailed close (pmap.map (fun v => decide (v < tl))))
  | some tu, some tl =>
    let ru := labelClusters1Tailed close (pmap.map (fun v => decide (tu < v)))
    let binBelow := pmap.map (fun v => decide (v < tl))
    let rl := labelClusters1Tailed close binBelow
    let x := ru.1.foldr max 0
    let cmapL := List.zipWith (fun b v => if b then v + x else v) binBelow rl.1
    Except.ok (List.zipWith (· + ·) ru.1 cmapL, ru.2 ++ rl.2.map (· + x))

/-- The finalized cluster dataset `ds` built in `_finalize` (lines 784-827):
columns p, v, the per-cluster masked statistic maps, and the tstart/tstop
columns (rows sorted by ascending p). -/
structure ClusterTable where
  pVals : List ℚ
  vVals : List ℚ
  clusterMaps : List (List ℚ)
  tstart : List ℚ
  tstop : List ℚ
  deriving DecidableEq

/-- State of a `_ClusterDist` instance, for a dependent variable whose
non-case shape is 1-D (a uniform time axis of length `nFull`, so all
dimensions are adjacent).  Attributes that Python assigns only later in the
object's life are `Option`s (none = attribute absent). -/
structure ClusterDist where
  nFull : ℕ
  crop : Bool
  istart : ℕ
  istop : ℕ
  tUpper : Option ℚ
  tLower : Option ℚ
  close : Option ℕ
  dist : List ℚ
  i : ℤ
  times0 : ℚ
  tstep : ℚ
  clusterIm : Option (List ℕ)
  originalPmap : Option (List ℚ)
  cids : Option (List ℕ)
  nClusters : Option ℕ
  clusters : Option (Option ClusterTable)
  cpmap : Option (List ℚ)
  pmapAttr : Option (List ℚ)
  deriving DecidableEq

/-- `_ClusterDist.__init__` (lines 667-755) for the 1-D dependent variable.
The threshold pair is validated first (t_lower < 0, t_upper > 0, symmetry;
each failure is a ValueError), then a nonzero `close_time` raises
NotImplementedError (so `self._close` is always None in a constructed
object).  The time axis is adjacent, so the single-dimension instance never
hits the "more than one non-adjacent dimension" branch.  `istart`/`istop` are
the crop indices the source derives from tstart/tstop via the time dimension
(`Y.time.index`), `times0`/`tstep` the cropped time axis start and step. -/
def clusterDistInit (nFull N : ℕ) (tUpper tLower : Option ℚ) (closeTime : ℚ)
    (crop : Bool) (istart istop : ℕ) (times0 tstep : ℚ) : Except CDErr ClusterDist :=
  if (match tLower with | some v => decide (0 ≤ v) | none => false) then
    Except.error CDErr.invalidThreshold
  else if (match tUpper with | some v => decide (v ≤ 0) | none => false) then
    Except.error CDErr.invalidThreshold
  else if (match tUpper, tLower with
           | some u, some l => decide (l ≠ -u)
           | _, _ => false) then
    Except.error CDErr.invalidThreshold
  else if closeTime ≠ 0 then
    Except.error CDErr.notImplemented
  else
    Except.ok {
      nFull := nFull, crop := crop, istart := istart, istop := istop,
      tUpper := tUpper, tLower := tLower, close := none,
      dist := List.replicate N 0, i := (N : ℤ), times0 := times0, tstep := tstep,
      clusterIm := none, originalPmap := none, cids := none, nClusters := none,
      clusters := none, cpmap := none, pmapAttr := none }

/-- `_ClusterDist._crop` (lines 757-761): `im[istart:istop]` along the time
axis when cropping is configured. -/
def cropL (st : ClusterDist) (im : List ℚ) : List ℚ :=
  if st.crop then (im.drop st.istart).take (st.istop - st.istart) else im

/-- `_ClusterDist._uncrop` (lines 932-939): allocate the uncropped shape,
fill with `background` and write `im` into the crop slice. -/
def uncropL (st : ClusterDist) (im : List ℚ) (background : ℚ) : List ℚ :=
  if st.crop then
    List.replicate st.istart background ++ im ++
      List.replicate (st.nFull - st.istop) background
  else im

/-- `pmap_ * c_mask` with `c_mask = (cmap == cid)` (line 805-807). -/
def maskMul (pmapC : List ℚ) (cmap : List ℕ) (cid : ℕ) : List ℚ :=
  List.zipWith (fun v l => if l = cid then v else 0) pmapC cmap

/-- `ndimage.sum(pmap_, cmap, cids)` (line 778): per cluster id, the sum of
the parameter map over the cluster's members. -/
def clusterVs (pmapC : List ℚ) (cmap : List ℕ) (cids : List ℕ) : List ℚ :=
  cids.map (fun cid => (maskMul pmapC cmap cid).sum)

/-- `scipy.stats.percentileofscore(dist, score, 'mean')`: mean of the
percentage of entries strictly below and of entries at-or-below the score. -/
def percentileOfScoreMean (dist : List ℚ) (score : ℚ) : ℚ :=
  (((dist.countP (fun a => decide (a < score))) +
    (dist.countP (fun a => decide (a ≤ score))) : ℕ) : ℚ) * 50 / (dist.length : ℚ)

/-- `np.abs` on a scalar (spelled out so that it evaluates). -/
def ratAbs (q : ℚ) : ℚ := if q < 0 then -q else q

/-- `np.max` of two scalars (spelled out so that it evaluates). -/
def ratMax (a b : ℚ) : ℚ := if a ≤ b then b else a

/-- The cluster p-values (lines 779-780):
`1 - percentileofscore(self.dist, abs(v), 'mean') / 100` per cluster value. -/
def clusterPs (dist vals : List ℚ) : List ℚ :=
  vals.map (fun v => 1 - percentileOfScoreMean dist (ratAbs v) / 100)

/-- Insert index `j` into an index list sorted by ascending key `l.getD · 0`. -/
def insertByKey (l : List ℚ) (j : ℕ) : List ℕ → List ℕ
  | [] => [j]
  | k :: ks => if l.getD j 0 < l.getD k 0 then j :: k :: ks else k :: insertByKey l j ks

/-- `np.argsort(cluster_p)` (line 781): indices sorting the key list
ascending (tie order immaterial downstream: cluster masks are disjoint). -/
def argsortAsc (l : List ℚ) : List ℕ :=
  (List.range l.length).foldr (insertByKey l) []

/-- One step of the cpmap fill loop (line 805-806): `cpmap[cmap == cid] = p`. -/
def setWhere (acc : List ℚ) (cmap : List ℕ) (cid : ℕ) (p : ℚ) : List ℚ :=
  List.zipWith (fun a l => if l = cid then p else a) acc cmap

/-- The cropped cluster-probability map built in `_finalize` (lines 796,
799-806): start from `np.ones_like(pmap_)` and write each sorted cluster's
p-value over its mask. -/
def cpmapCroppedDef (pmapC : List ℚ) (cmap : List ℕ) (cids : List ℕ)
    (clusterP : List ℚ) (sortIdx : List ℕ) : List ℚ :=
  sortIdx.foldl (fun acc ci => setWhere acc cmap (cids.getD ci 0) (clusterP.getD ci 0))
    (List.replicate pmapC.length 1)

/-- `ndimage.find_objects(cmap)` entry for label `cid` on a 1-D label image:
the slice (first index, one past last index) of the label's bounding box
(line 798, 810).  Only used for labels that occur in `cmap`. -/
def findObject1D (cmap : List ℕ) (cid : ℕ) : ℕ × ℕ :=
  (cmap.findIdx (fun l => l = cid),
   cmap.length - cmap.reverse.findIdx (fun l => l = cid))

/-- `time.times[k]` of the cropped (uniform) time dimension. -/
def timeAt (st : ClusterDist) (k : ℕ) : ℚ := st.times0 + (k : ℚ) * st.tstep

/-- `len(time)` of the cropped time dimension (`self.Y_perm`). -/
def lenTime (st : ClusterDist) : ℕ :=
  if st.crop then st.istop - st.istart else st.nFull

/-- `_ClusterDist._finalize` (lines 763-838).  Raises RuntimeError when the
permutation counter went negative; with zero clusters sets `clusters = None`
and returns (no probability map, no statistic map attributes are created);
otherwise measures the original clusters against the null distribution,
sorts by p, builds the cluster table, the uncropped per-cluster masked maps
(background 0), the uncropped cluster-probability map (background 1) and
stores the unmodified original map. -/
def finalize (st : ClusterDist) : Except CDErr ClusterDist :=
  if st.i < 0 then Except.error CDErr.tooManyPermutations
  else
    match st.originalPmap, st.clusterIm, st.cids, st.nClusters with
    | some pmap, some cmap, some cids, some nC =>
      if nC = 0 then Except.ok { st with clusters := some none }
      else
        let pmapC := cropL st pmap
        let clusterV := clusterVs pmapC cmap cids
        let clusterP := clusterPs st.dist clusterV
        let sortIdx := argsortAsc clusterP
        let cpmapC := cpmapCroppedDef pmapC cmap cids clusterP sortIdx
        let cmaps := sortIdx.map (fun ci => uncropL st (maskMul pmapC cmap (cids.getD ci 0)) 0)
        let tstarts := sortIdx.map (fun ci => timeAt st (findObject1D cmap (cids.getD ci 0)).1)
        let tstops := sortIdx.map (fun ci =>
          let hi := (findObject1D cmap (cids.getD ci 0)).2
          if hi = lenTime st then timeAt st (lenTime st - 1) + st.tstep else timeAt st hi)
        Except.ok { st with
          clusters := some (some {
            pVals := sortIdx.map (fun ci => clusterP.getD ci 0),
            vVals := sortIdx.map (fun ci => clusterV.getD ci 0),
            clusterMaps := cmaps, tstart := tstarts, tstop := tstops }),
          cpmap := some (uncropL st cpmapC 1),
          pmapAttr := some pmap }
    | _, _, _, _ => Except.error CDErr.attributeError

/-- `_ClusterDist.add_original` (lines 941-966): refuse a second submission,
crop, label (the 1-D data is all-adjacent, so no axis swap / reshape), store
the label image, the id set, the cluster count and the uncropped original
map, and finalize immediately when no clusters were found. -/
def add_original (st : ClusterDist) (pmap : List ℚ) : Except CDErr ClusterDist :=
  if st.clusterIm.isSome then Except.error CDErr.originalAlreadyAdded
  else
    let pmapC := cropL st pmap
    match labelClusters st.close st.tUpper st.tLower pmapC with
    | Except.error e => Except.error e
    | Except.ok (cmap, cids) =>
      let st2 := { st with clusterIm := some cmap, originalPmap := some pmap,
                           cids := some cids, nClusters := some cids.length }
      if cids.length = 0 then finalize st2 else Except.ok st2

/-- `np.max(np.abs(clusters_v))` over a nonempty list (line 985). -/
def maxAbsList (l : List ℚ) : ℚ :=
  match l.map ratAbs with
  | [] => 0
  | x :: xs => xs.foldl ratMax x

/-- numpy scalar assignment `dist[i] = v` with an integer index: negative
indices wrap around from the end; out of `[-len, len)` is an IndexError. -/
def npSetAt (l : List ℚ) (i : ℤ) (v : ℚ) : Except CDErr (List ℚ) :=
  if 0 ≤ i ∧ i < (l.length : ℤ) then Except.ok (l.set i.toNat v)
  else if -(l.length : ℤ) ≤ i ∧ i < 0 then Except.ok (l.set (i + (l.length : ℤ)).toNat v)
  else Except.error CDErr.indexError

/-- `_ClusterDist.add_perm` (lines 968-988): decrement the counter first,
label the supplied map, record the maximum absolute cluster sum into the
current distribution slot when any cluster was found, and finalize when the
counter reaches exactly zero.  Note: nothing guards against the counter
going negative — `dist[self._i]` then writes through numpy negative
indexing. -/
def add_perm (st : ClusterDist) (pmap : List ℚ) : Except CDErr ClusterDist :=
  let st1 := { st with i := st.i - 1 }
  match labelClusters st1.close st1.tUpper st1.tLower pmap with
  | Except.error e => Except.error e
  | Except.ok (cmap, cids) =>
    match (if cids.isEmpty then Except.ok st1.dist
           else npSetAt st1.dist st1.i (maxAbsList (clusterVs pmap cmap cids))) with
    | Except.error e => Except.error e
    | Except.ok d =>
      let st2 := { st1 with dist := d }
      if st2.i = 0 then finalize st2 else Except.ok st2

/-! ### The connectivity-merge labeling pass (non-all-adjacent case)

When one dimension carries an explicit adjacency graph, `add_original` /
`add_perm` move that axis to the front and flatten the remaining axes
(lines 953-955), so `_label_clusters_1tailed` works on a 2-D array whose
rows are graph positions ("channels") and whose columns are the flattened
regular positions.  `ndimage.label` is run with the structuring element
`generate_binary_structure(2, 1)` with `struct[::2] = False` (lines
734-735), which connects only along the second (column) axis; connectivity
along the graph axis is established afterwards by the per-column merge loop
(lines 903-928) using the dimension's sparse connectivity matrix. -/

/-- `ndimage.label` on the 2-D working array with the row-only structuring
element: each row is labeled 1-D with a counter running across rows in
raster order. -/
def label2DRowsAux : List (List Bool) → ℕ → List (List ℕ) × ℕ
  | [], n => ([], n)
  | r :: rs, n =>
    let lr := label1DAux r false n
    let rest := label2DRowsAux rs lr.2
    (lr.1 :: rest.1, rest.2)

/-- Union the representative classes of the two endpoints of one edge of the
(undirected) connectivity matrix, relabeling both classes to the smaller
representative. -/
def unionStep (rep : List ℕ) (e : ℕ × ℕ) : List ℕ :=
  let ra := rep.getD e.1 e.1
  let rb := rep.getD e.2 e.2
  let m := min ra rb
  rep.map (fun r => if r = ra ∨ r = rb then m else r)

/-- Representatives of the connected components of the graph on nodes
`0..n-1` with the given (undirected) edge list, as computed by
`scipy.sparse.csgraph.connected_components(c_, False)`. -/
def compReps (n : ℕ) (edges : List (ℕ × ℕ)) : List ℕ :=
  edges.foldl unionStep (List.range n)

/-- The distinct values of a list in order of first occurrence. -/
def firstOccs (l : List ℕ) : List ℕ :=
  l.foldl (fun acc r => if r ∈ acc then acc else acc ++ [r]) []

/-- `connected_components` label of node `v`: components are numbered in
order of their first node. -/
def compLabel (rep : List ℕ) (v : ℕ) : ℕ :=
  (firstOccs rep).findIdx (fun r => r = rep.getD v v)

/-- `np.unique`: ascending insertion without duplicates. -/
def npUniqueIns (x : ℕ) : List ℕ → List ℕ
  | [] => [x]
  | y :: ys => if x < y then x :: y :: ys else if x = y then y :: ys else y :: npUniqueIns x ys

/-- `np.unique` of a list: sorted distinct values. -/
def npUnique (l : List ℕ) : List ℕ := l.foldr npUniqueIns []

/-- Merge step for one multi-node graph component `l` at column `i`
(lines 918-925): `merge = np.unique(cmap[idx_, i])`, relabel every cell of
the whole label image whose value is in `merge` to `merge[0]`, and drop
`merge[1:]` from the id set. -/
def mergeOneLabel (i nchan : ℕ) (lbl : ℕ → ℕ) (l : ℕ)
    (s : List (List ℕ) × List ℕ) : List (List ℕ) × List ℕ :=
  let members := (List.range nchan).filter (fun v => lbl v = l)
  let merge := npUnique (members.map (fun v => (s.1.getD v []).getD i 0))
  (s.1.map (List.map (fun w => if w ∈ merge then merge.headD 0 else w)),
   s.2.filter (fun c => c ∉ merge.drop 1))

/-- The per-column merge loop of `_label_clusters_1tailed` (lines 903-928):
skip columns with at most one distinct nonzero label; restrict the
connectivity edges to the rows that are nonzero in this column; skip when
the restricted graph is fully disconnected (`n_ == n_chan`); otherwise merge
the labels of every component with more than one node, and stop early when a
single cluster id remains. -/
def mergeLoop (edges : List (ℕ × ℕ)) (nchan : ℕ) :
    List ℕ → List (List ℕ) × List ℕ → List (List ℕ) × List ℕ
  | [], s => s
  | i :: rest, s =>
    let col := s.1.map (fun row => row.getD i 0)
    if (npUnique (col.filter (fun w => w ≠ 0))).length ≤ 1 then
      mergeLoop edges nchan rest s
    else
      let idx := (List.range nchan).filter (fun r => col.getD r 0 ≠ 0)
      let es := edges.filter (fun e => e.1 ∈ idx ∧ e.2 ∈ idx)
      let rep := compReps nchan es
      if (firstOccs rep).length = nchan then mergeLoop edges nchan rest s
      else
        let compIds := (List.range (firstOccs rep).length).filter
          (fun l => 2 ≤ (List.range nchan).countP (fun v => compLabel rep v = l))
        let s2 := compIds.foldl (fun t l => mergeOneLabel i nchan (compLabel rep) l t) s
        if s2.2.length = 1 then s2 else mergeLoop edges nchan rest s2

/-- `_ClusterDist._label_clusters_1tailed` in the non-all-adjacent case
(lines 897-930): row-only grid labeling followed by the per-column
graph-connectivity merge.  `bm` is the 2-D working array (graph axis first),
`edges` the dimension's connectivity matrix in coordinate form. -/
def labelGraph (bm : List (List Bool)) (edges : List (ℕ × ℕ)) :
    List (List ℕ) × List ℕ :=
  let r := label2DRowsAux bm 0
  mergeLoop edges r.1.length (List.range (bm.headD []).length)
    (r.1, List.range' 1 r.2)

/-- A 3-channel × 2-column boolean working array as a list of rows, for the
finite-domain statements about `labelGraph`. -/
def finToMap3x2 (f : Fin 3 → Fin 2 → Bool) : List (List Bool) :=
  [[f 0 0, f 0 1], [f 1 0, f 1 1], [f 2 0, f 2 1]]

/-- The exceedance map with true points at graph positions 0 and 2 (column
0): positions not adjacent in index order, joined only by the explicit
edge (0, 2). -/
def c3WitnessMap : Fin 3 → Fin 2 → Bool :=
  fun r c => decide (r.val ≠ 1 ∧ c.val = 0)

/-! ### Shape-level model of the chunked one-sample t computation

`ttest.__init__` (lines 334-346) switches to a chunked computation when the
input has more than `2 ** 25` elements.  The reassembly applies
`v[0].swapaxes(ax, 1)` to each per-chunk t-map, although the t-maps have one
dimension fewer than the data (`axis 0` was consumed by
`scipy.stats.ttest_1samp`); the divergence from the unchunked result is
visible at the level of array shapes, so the branch is modelled on shapes. -/

/-- `np.prod` of a shape. -/
def npProdL (l : List ℕ) : ℕ := l.foldl (· * ·) 1

/-- `np.argmax`: first index holding the maximum. -/
def argmaxIdx (l : List ℕ) : ℕ := l.findIdx (fun v => v = l.foldr max 0)

/-- Exchange the entries at positions `a` and `b` of a shape. -/
def swapPosL (s : List ℕ) (a b : ℕ) : List ℕ := (s.set a (s.getD b 0)).set b (s.getD a 0)

/-- `np.swapaxes(arr, a, b)` at shape level: an axis out of bounds raises. -/
def npSwapaxesShape (s : List ℕ) (a b : ℕ) : Except String (List ℕ) :=
  if a < s.length ∧ b < s.length then Except.ok (swapPosL s a b)
  else Except.error "AxisError"

/-- Chunk lengths produced by `xrange(0, mod_len, N)` with slices
`x[:, i:i + N]`. -/
def chunkLens (modLen N : ℕ) : List ℕ :=
  (List.range ((modLen + N - 1) / N)).map (fun k => min N (modLen - k * N))

/-- `np.atleast_2d` at shape level. -/
def atleast2d (s : List ℕ) : List ℕ := if s.length = 1 then 1 :: s else s

/-- `np.vstack` at shape level: concatenate along axis 0 after `atleast_2d`;
mismatched trailing shapes raise. -/
def vstackShape (shapes : List (List ℕ)) : Except String (List ℕ) :=
  match shapes.map atleast2d with
  | [] => Except.error "ValueError"
  | s :: ss =>
    if ss.all (fun t => t.drop 1 = s.drop 1) then
      Except.ok ((s.headD 0 + (ss.map (fun t => t.headD 0)).sum) :: s.drop 1)
    else Except.error "ValueError"

/-- Shape-level model of the chunked branch (lines 335-344):
`ax = argmax(x.shape[1:]) + 1`; swap axes `ax` and 1; chunk along the new
axis 1 by `N = 2 ** 25 // prod(fix_shape)`; each chunk's t-map has shape
`(chunk_len,) + x.shape[2:]`, to which the code applies
`swapaxes(ax, 1)`; finally `np.vstack`. -/
def chunkedTShape (s : List ℕ) : Except String (List ℕ) :=
  let ax := argmaxIdx (s.drop 1) + 1
  (npSwapaxesShape s ax 1).bind (fun s1 =>
    let modLen := s1.getD 1 0
    let fixShape := s1.take 1 ++ s1.drop 2
    let N := 2 ^ 25 / npProdL fixShape
    if N = 0 then Except.error "ValueError"
    else
      ((chunkLens modLen N).mapM (fun cl => npSwapaxesShape (cl :: s1.drop 2) ax 1)).bind
        vstackShape)

/-- Shape of `T` (and `P`) computed by the one-sample branch
(lines 334-346): the chunked path for more than `2 ** 25` elements,
otherwise plain `scipy.stats.ttest_1samp` along axis 0, whose result shape
is `x.shape[1:]`. -/
def oneSampleTShape (s : List ℕ) : Except String (List ℕ) :=
  if 2 ^ 25 < npProdL s then chunkedTShape s else Except.ok (s.drop 1)

/-! ### Value-level statistic formulas

The samples×positions data array is a `List (List ℝ)` (one inner list per
case); the statistic maps are functions from the flattened position index.
Square roots force these definitions into `ℝ`. -/

noncomputable section

/-- `np.mean(a, 0)`: per-position mean over cases. -/
def npMean0 (a : List (List ℝ)) : ℕ → ℝ := fun j =>
  (a.map (fun r => r.getD j 0)).sum / (a.length : ℝ)

/-- `np.var(a, 0, ddof=1)`: per-position sample variance over cases with
divisor `n - 1`. -/
def npVar0 (a : List (List ℝ)) : ℕ → ℝ := fun j =>
  (a.map (fun r => (r.getD j 0 - npMean0 a j) ^ 2)).sum / ((a.length : ℝ) - 1)

/-- `_t_ind` (lines 405-423), `equal_var` branch: split the stacked data into
the first `n1` and the remaining `n2` cases, pool the two `ddof=1` variances
and form the t map elementwise. -/
def t_ind (x : List (List ℝ)) (n1 n2 : ℕ) : ℕ → ℝ := fun j =>
  let a := x.take n1
  let b := x.drop n1
  let v1 := npVar0 a j
  let v2 := npVar0 b j
  let svar := (((n1 : ℝ) - 1) * v1 + ((n2 : ℝ) - 1) * v2) / ((n1 : ℝ) + (n2 : ℝ) - 2)
  let denom := Real.sqrt (svar * (1 / (n1 : ℝ) + 1 / (n2 : ℝ)))
  let d := npMean0 a j - npMean0 b j
  d / denom

/-- The spec's textbook mean of one sample (for the refinement statement of
the pooled-variance formula). -/
def specMean (s : List ℝ) : ℝ := s.sum / (s.length : ℝ)

/-- The spec's sample variance with divisor `n - 1` (`ddof=1`). -/
def specSampleVar (s : List ℝ) : ℝ :=
  (s.map (fun v => (v - specMean s) ^ 2)).sum / ((s.length : ℝ) - 1)

/-- The spec's pooled-variance independent-samples t statistic:
`t = (mean(a) - mean(b)) / sqrt(svar * (1/n1 + 1/n2))` with
`svar = ((n1-1)*var(a) + (n2-1)*var(b)) / (n1+n2-2)`. -/
def specPooledT (a b : List ℝ) : ℝ :=
  let svar := (((a.length : ℝ) - 1) * specSampleVar a + ((b.length : ℝ) - 1) * specSampleVar b) /
      ((a.length : ℝ) + (b.length : ℝ) - 2)
  (specMean a - specMean b) / Real.sqrt (svar * (1 / (a.length : ℝ) + 1 / (b.length : ℝ)))

/-- t statistic of `scipy.stats.ttest_1samp(x, popmean, axis=0)` per
position. -/
def ttest1sampT (x : List (List ℝ)) (popmean : ℝ) : ℕ → ℝ := fun j =>
  let d := x.map (fun r => r.getD j 0)
  (specMean d - popmean) / Real.sqrt (specSampleVar d / (d.length : ℝ))

/-- Python error raised by the one-sample branch of `ttest.__init__`. -/
inductive TtestErr where
  /-- `self.diff_cl = [diff, cdist.cpmap]` (line 397) reads the local
      `cdist`, which the one-sample branch never assigns -/
  | unboundLocalCdist
  deriving DecidableEq

/-- Attributes the one-sample branch of `ttest.__init__` stores when it
completes (lines 348-394; the p map from `scipy.stats.t.sf` and display
metadata are external and not modelled). -/
structure TtestOneSampleRes where
  t : ℕ → ℝ
  n : ℕ
  df : ℕ
  diff : ℕ → ℝ

/-- The one-sample (scalar `c0`) branch of `ttest.__init__` (lines 328-354
and the closing block 377-402).  `T` is computed (the chunked variant for
more than `2 ** 25` elements is modelled at shape level by
`oneSampleTShape`; the data sizes relevant here take the plain branch), then
`diff = c1_mean - c0` when `c0` is truthy, and the `if samples:` block at
line 396 reads the local `cdist` that was never assigned on this branch —
the one-sample branch builds no `_ClusterDist` at all (lines 328-354). -/
def ttestOneSampleInit (x : List (List ℝ)) (c0 : ℝ) (samples : ℕ) :
    Except TtestErr TtestOneSampleRes :=
  let T := ttest1sampT x c0
  let n := x.length
  let df := n - 1
  let c1Mean := npMean0 x
  let diff := if c0 ≠ 0 then fun j => c1Mean j - c0 else c1Mean
  if samples ≠ 0 then Except.error TtestErr.unboundLocalCdist
  else Except.ok { t := T, n := n, df := df, diff := diff }

end

/-! ### Concrete accumulator states of the N = 1 overflow run

The run behind the null-distribution size claim: `_ClusterDist(Y, N=1,
t_upper=1, t_lower=-1)` over a 2-point time axis, `add_original([2, 0])`
(one cluster), then `add_perm` twice. -/

/-- Freshly constructed accumulator with N = 1. -/
def c2StInit : ClusterDist :=
  { nFull := 2, crop := false, istart := 0, istop := 2, tUpper := some 1,
    tLower := some (-1), close := none, dist := [0], i := 1, times0 := 0, tstep := 1,
    clusterIm := none, originalPmap := none, cids := none, nClusters := none,
    clusters := none, cpmap := none, pmapAttr := none }

/-- After `add_original([2, 0])`: one cluster at index 0, not finalized. -/
def c2StA : ClusterDist :=
  { c2StInit with
    clusterIm := some [1, 0]
    originalPmap := some [2, 0]
    cids := some [1]
    nClusters := some 1 }

/-- After the 1st `add_perm([0, 3])`: the permutation cluster sum 3 fills
`dist[0]`, the counter reaches 0 and the accumulator finalizes. -/
def c2StB : ClusterDist :=
  { c2StA with
    i := 0
    dist := [3]
    clusters := some (some ⟨[1], [2], [[2, 0]], [0], [1]⟩)
    cpmap := some [1, 1]
    pmapAttr := some [2, 0] }

/-- After the 2nd (overflow) `add_perm([5, 0])`: no error is raised; the
counter is -1 and `dist[-1]` silently overwrote the only filled slot. -/
def c2StC : ClusterDist :=
  { c2StB with
    i := -1
    dist := [5] }

/-- A cropped accumulator about to finalize: 4-sample time axis, analysis
window [1, 3) strictly inside it, original map [0, 2, 0, 0] whose cropped
slice [2, 0] holds one cluster, null distribution filled with one
permutation value 3 and the counter at 0. -/
def c8State : ClusterDist :=
  { nFull := 4, crop := true, istart := 1, istop := 3, tUpper := some 1,
    tLower := some (-1), close := none, dist := [3], i := 0, times0 := 1, tstep := 1,
    clusterIm := some [1, 0], originalPmap := some [0, 2, 0, 0], cids := some [1],
    nClusters := some 1, clusters := none, cpmap := none, pmapAttr := none }

/-! ## Theorems -/

/-! ### Properties of the 1-D run labeler -/

theorem label1DAux_length (bm : List Bool) (prev : Bool) (n : ℕ) :
    (label1DAux bm prev n).1.length = bm.length := by
  induction bm generalizing prev n with
  | nil => simp [label1DAux]
  | cons b bs ih => cases b <;> simp [label1DAux, ih]

theorem label1DAux_le_counter (bm : List Bool) (prev : Bool) (n : ℕ) :
    n ≤ (label1DAux bm prev n).2 := by
  induction bm generalizing prev n with
  | nil => simp [label1DAux]
  | cons b bs ih =>
    cases b
    · simpa [label1DAux] using ih false n
    · simp only [label1DAux]
      cases prev
      · exact le_trans (Nat.le_succ n) (ih true (n + 1))
      · exact ih true n

theorem label1DAux_mem_bound (bm : List Bool) (prev : Bool) (n : ℕ) :
    ∀ l ∈ (label1DAux bm prev n).1,
      l = 0 ∨ (l ≤ (label1DAux bm prev n).2 ∧ n ≤ l ∧ (prev = false → n < l)) := by
  induction bm generalizing prev n with
  | nil => simp [label1DAux]
  | cons b bs ih =>
    intro l hl
    cases b
    · simp only [label1DAux, Bool.false_eq_true, if_false, List.mem_cons] at hl ⊢
      rcases hl with rfl | hl
      · exact Or.inl rfl
      · rcases ih false n l hl with h0 | ⟨h1, h2, h3⟩
        · exact Or.inl h0
        · exact Or.inr ⟨h1, le_of_lt (h3 rfl), fun _ => h3 rfl⟩
    · simp only [label1DAux, if_true, List.mem_cons] at hl ⊢
      cases prev
      · simp only [Bool.false_eq_true, if_false] at hl ⊢
        rcases hl with rfl | hl
        · exact Or.inr ⟨label1DAux_le_counter bs true (n + 1), Nat.le_succ n,
            fun _ => Nat.lt_succ_self n⟩
        · rcases ih true (n + 1) l hl with h0 | ⟨h1, h2, _⟩
          · exact Or.inl h0
          · exact Or.inr ⟨h1, le_trans (Nat.le_succ n) h2,
              fun _ => lt_of_lt_of_le (Nat.lt_succ_self n) h2⟩
      · simp only [if_true] at hl ⊢
        rcases hl with h | hl
        · refine Or.inr ⟨?_, ?_, fun hf => by cases hf⟩
          · rw [h]
            exact label1DAux_le_counter bs true n
          · rw [h]
        · rcases ih true n l hl with h0 | ⟨h1, h2, _⟩
          · exact Or.inl h0
          · exact Or.inr ⟨h1, h2, fun hf => by cases hf⟩

theorem label1DAux_final_mem (bm : List Bool) (prev : Bool) (n : ℕ) :
    (label1DAux bm prev n).2 = n ∨ (label1DAux bm prev n).2 ∈ (label1DAux bm prev n).1 := by
  induction bm generalizing prev n with
  | nil => simp [label1DAux]
  | cons b bs ih =>
    cases b
    · simp only [label1DAux, Bool.false_eq_true, if_false, List.mem_cons]
      rcases ih false n with h | h
      · exact Or.inl h
      · exact Or.inr (Or.inr h)
    · simp only [label1DAux, if_true, List.mem_cons]
      rcases ih true (if prev then n else n + 1) with h | h
      · exact Or.inr (Or.inl h)
      · exact Or.inr (Or.inr h)

theorem label1DAux_getD_ne_zero (bm : List Bool) (prev : Bool) (n : ℕ)
    (hp : prev = true → 1 ≤ n) (j : ℕ) :
    ((label1DAux bm prev n).1.getD j 0 ≠ 0) ↔ (bm.getD j false = true) := by
  induction bm generalizing prev n j with
  | nil => simp [label1DAux]
  | cons b bs ih =>
    cases b
    · cases j with
      | zero => simp [label1DAux]
      | succ k => simpa [label1DAux] using ih false n (fun h => by cases h) k
    · cases j with
      | zero =>
        simp only [label1DAux, if_true, List.getD_cons_zero, List.getD]
        cases prev
        · simp
        · simpa using Nat.one_le_iff_ne_zero.mp (hp rfl)
      | succ k =>
        simp only [label1DAux, if_true, List.getD_cons_succ]
        refine (ih true (if prev then n else n + 1) ?_ k).trans (by simp)
        intro _
        cases prev
        · simp
        · simpa using hp rfl

theorem le_foldr_max {l : List ℕ} {x : ℕ} (h : x ∈ l) : x ≤ l.foldr max 0 := by
  induction l with
  | nil => cases h
  | cons a as ih =>
    rcases List.mem_cons.mp h with rfl | h
    · exact le_max_left _ _
    · exact le_trans (ih h) (le_max_right _ _)

theorem foldr_max_le {l : List ℕ} {b : ℕ} (h : ∀ x ∈ l, x ≤ b) : l.foldr max 0 ≤ b := by
  induction l with
  | nil => exact Nat.zero_le b
  | cons a as ih =>
    exact max_le (h a (List.mem_cons_self a as)) (ih (fun x hx => h x (List.mem_cons_of_mem a hx)))

theorem label1D_length (bm : List Bool) : (label1D bm).1.length = bm.length :=
  label1DAux_length bm false 0

theorem label1D_getD_ne_zero (bm : List Bool) (j : ℕ) :
    ((label1D bm).1.getD j 0 ≠ 0) ↔ (bm.getD j false = true) :=
  label1DAux_getD_ne_zero bm false 0 (fun h => by cases h) j

theorem label1D_getD_le (bm : List Bool) (j : ℕ) :
    (label1D bm).1.getD j 0 ≤ (label1D bm).2 := by
  by_cases hj : j < (label1D bm).1.length
  · have hmem : (label1D bm).1.getD j 0 ∈ (label1D bm).1 := by
      rw [List.getD_eq_getElem _ _ hj]
      exact List.getElem_mem hj
    rcases label1DAux_mem_bound bm false 0 _ hmem with h0 | ⟨h1, _, _⟩
    · omega
    · exact h1
  · rw [List.getD_eq_default _ _ (le_of_not_lt hj)]
    exact Nat.zero_le _

theorem label1D_foldr_max (bm : List Bool) :
    (label1D bm).1.foldr max 0 = (label1D bm).2 := by
  apply le_antisymm
  · apply foldr_max_le
    intro x hx
    rcases label1DAux_mem_bound bm false 0 x hx with h0 | ⟨h1, _, _⟩
    · omega
    · exact h1
  · rcases label1DAux_final_mem bm false 0 with h | h
    · rw [label1D, h]
      exact Nat.zero_le _
    · exact le_foldr_max h

/-! ### Pointwise access helpers -/

theorem getD_map_of_lt {α β : Type _} (f : α → β) (l : List α) (j : ℕ) (da : α) (db : β)
    (h : j < l.length) : (l.map f).getD j db = f (l.getD j da) := by
  induction l generalizing j with
  | nil => cases h
  | cons a as ih =>
    cases j with
    | zero => rfl
    | succ k => exact ih k (by simpa using h)

theorem getD_zipWith_of_lt {α β γ : Type _} (f : α → β → γ) (a : List α) (b : List β)
    (j : ℕ) (da : α) (db : β) (dc : γ) (ha : j < a.length) (hb : j < b.length) :
    (List.zipWith f a b).getD j dc = f (a.getD j da) (b.getD j db) := by
  induction a generalizing b j with
  | nil => cases ha
  | cons x xs ih =>
    cases b with
    | nil => cases hb
    | cons y ys =>
      cases j with
      | zero => rfl
      | succ k => exact ih ys k (by simpa using ha) (by simpa using hb)

/-! ### The two-tailed combination -/

theorem labelClusters1Tailed_none (bm : List Bool) :
    labelClusters1Tailed none bm = ((label1D bm).1, List.range' 1 (label1D bm).2) := rfl

theorem labelClusters_both (close : Option ℕ) (tu tl : ℚ) (pmap : List ℚ) :
    labelClusters close (some tu) (some tl) pmap =
      Except.ok
        (List.zipWith (· + ·)
            (labelClusters1Tailed close (pmap.map (fun v => decide (tu < v)))).1
            (List.zipWith
              (fun b v => if b then
                  v + (labelClusters1Tailed close
                    (pmap.map (fun v => decide (tu < v)))).1.foldr max 0
                else v)
              (pmap.map (fun v => decide (v < tl)))
              (labelClusters1Tailed close (pmap.map (fun v => decide (v < tl)))).1),
          (labelClusters1Tailed close (pmap.map (fun v => decide (tu < v)))).2 ++
            (labelClusters1Tailed close (pmap.map (fun v => decide (v < tl)))).2.map
              (· + (labelClusters1Tailed close
                (pmap.map (fun v => decide (tu < v)))).1.foldr max 0)) := rfl

/-- Claim C4: with both thresholds present, `_label_clusters` labels the
above-`t_upper` mask and the below-`t_lower` mask independently, offsets all
lower-mask ids by the maximum id of the upper pass and sums label images and
unions id sets: the combined label image is nonzero exactly at
threshold-exceeding points, every nonzero label is a positive member of the
returned id set, the id set has no duplicates, and labels of the two signs
are always distinct (disjoint positive integers). -/
theorem c4_two_tailed_disjoint_ids (pmap : List ℚ) (tu tl : ℚ)
    (hu : 0 < tu) (hl : tl < 0) :
    ∃ cmap cids, labelClusters none (some tu) (some tl) pmap = Except.ok (cmap, cids) ∧
      cmap.length = pmap.length ∧
      cids.Nodup ∧
      (∀ c ∈ cids, 0 < c) ∧
      (∀ j, cmap.getD j 0 ≠ 0 ↔ (tu < pmap.getD j 0 ∨ pmap.getD j 0 < tl)) ∧
      (∀ j, cmap.getD j 0 ≠ 0 → cmap.getD j 0 ∈ cids) ∧
      (∀ i j, tu < pmap.getD i 0 → pmap.getD j 0 < tl →
        cmap.getD i 0 ≠ cmap.getD j 0) := by
  set BU := pmap.map (fun v => decide (tu < v)) with hBU
  set BL := pmap.map (fun v => decide (v < tl)) with hBL
  set CU := (label1D BU).1 with hCU
  set CL := (label1D BL).1 with hCL
  set nu := (label1D BU).2 with hnu
  set nl := (label1D BL).2 with hnl
  have hlu : CU.length = pmap.length := by rw [hCU, label1D_length, hBU, List.length_map]
  have hll : CL.length = pmap.length := by rw [hCL, label1D_length, hBL, List.length_map]
  have hlB : BL.length = pmap.length := by rw [hBL, List.length_map]
  have hgu : ∀ j, BU.getD j false = decide (tu < pmap.getD j 0) := by
    intro j
    by_cases hj : j < pmap.length
    · rw [hBU]
      exact getD_map_of_lt _ _ j 0 false hj
    · rw [List.getD_eq_default _ _ (by rw [hBU, List.length_map]; omega),
          List.getD_eq_default _ _ (le_of_not_lt hj)]
      exact (decide_eq_false (by intro hcon; linarith)).symm
  have hgl : ∀ j, BL.getD j false = decide (pmap.getD j 0 < tl) := by
    intro j
    by_cases hj : j < pmap.length
    · rw [hBL]
      exact getD_map_of_lt _ _ j 0 false hj
    · rw [List.getD_eq_default _ _ (by rw [hBL, List.length_map]; omega),
          List.getD_eq_default _ _ (le_of_not_lt hj)]
      exact (decide_eq_false (by intro hcon; linarith)).symm
  have hCUne : ∀ j, CU.getD j 0 ≠ 0 ↔ tu < pmap.getD j 0 := by
    intro j
    rw [hCU, label1D_getD_ne_zero, hgu j, decide_eq_true_eq]
  have hCLne : ∀ j, CL.getD j 0 ≠ 0 ↔ pmap.getD j 0 < tl := by
    intro j
    rw [hCL, label1D_getD_ne_zero, hgl j, decide_eq_true_eq]
  have hCUle : ∀ j, CU.getD j 0 ≤ nu := by
    intro j
    rw [hCU, hnu]
    exact label1D_getD_le BU j
  have hCLle : ∀ j, CL.getD j 0 ≤ nl := by
    intro j
    rw [hCL, hnl]
    exact label1D_getD_le BL j
  set C := List.zipWith (· + ·) CU
    (List.zipWith (fun b v => if b then v + nu else v) BL CL) with hC
  set I := List.range' 1 nu ++ (List.range' 1 nl).map (· + nu) with hI
  have hres : labelClusters none (some tu) (some tl) pmap = Except.ok (C, I) := by
    rw [labelClusters_both none tu tl pmap]
    simp only [labelClusters1Tailed_none, label1D_foldr_max]
  have hCl : C.length = pmap.length := by
    rw [hC, List.length_zipWith, List.length_zipWith, hlu, hll, hlB]
    omega
  have hCval : ∀ j, j < pmap.length →
      C.getD j 0 = CU.getD j 0 +
        (if pmap.getD j 0 < tl then CL.getD j 0 + nu else CL.getD j 0) := by
    intro j hj
    rw [hC, getD_zipWith_of_lt _ _ _ j 0 0 0 (by omega)
          (by rw [List.length_zipWith, hlB, hll]; omega),
        getD_zipWith_of_lt _ _ _ j false 0 0 (by omega) (by omega),
        hgl j]
    by_cases hB : pmap.getD j 0 < tl
    · rw [decide_eq_true hB, if_pos hB]
      simp
    · rw [decide_eq_false hB, if_neg hB]
      simp
  have hCiff : ∀ j, C.getD j 0 ≠ 0 ↔ (tu < pmap.getD j 0 ∨ pmap.getD j 0 < tl) := by
    intro j
    by_cases hj : j < pmap.length
    · rw [hCval j hj]
      by_cases hA : tu < pmap.getD j 0
      · have hnB : ¬ pmap.getD j 0 < tl := by linarith
        have h1 : CU.getD j 0 ≠ 0 := (hCUne j).mpr hA
        have h2 : CL.getD j 0 = 0 := by
          by_contra hc
          exact hnB ((hCLne j).mp hc)
        rw [if_neg hnB, h2]
        simp only [Nat.add_zero]
        exact ⟨fun _ => Or.inl hA, fun _ => h1⟩
      · by_cases hB : pmap.getD j 0 < tl
        · have h1 : CU.getD j 0 = 0 := by
            by_contra hc
            exact hA ((hCUne j).mp hc)
          have h2 : CL.getD j 0 ≠ 0 := (hCLne j).mpr hB
          rw [if_pos hB, h1]
          constructor
          · intro _
            exact Or.inr hB
          · intro _
            omega
        · have h1 : CU.getD j 0 = 0 := by
            by_contra hc
            exact hA ((hCUne j).mp hc)
          have h2 : CL.getD j 0 = 0 := by
            by_contra hc
            exact hB ((hCLne j).mp hc)
          rw [if_neg hB, h1, h2]
          constructor
          · intro hcon
            exact absurd rfl hcon
          · intro hcon
            rcases hcon with h | h
            · exact absurd h hA
            · exact absurd h hB
    · rw [List.getD_eq_default _ _ (by omega),
          List.getD_eq_default _ _ (le_of_not_lt hj)]
      constructor
      · intro hcon
        exact absurd rfl hcon
      · intro hcon
        rcases hcon with h | h <;> [linarith; linarith]
  have hCmem : ∀ j, C.getD j 0 ≠ 0 → C.getD j 0 ∈ I := by
    intro j hne
    have hj : j < pmap.length := by
      by_contra hj
      exact hne (List.getD_eq_default _ _ (by omega))
    rcases (hCiff j).mp hne with hA | hB
    · have hnB : ¬ pmap.getD j 0 < tl := by linarith
      have h2 : CL.getD j 0 = 0 := by
        by_contra hc
        exact hnB ((hCLne j).mp hc)
      have hv : C.getD j 0 = CU.getD j 0 := by
        rw [hCval j hj, if_neg hnB, h2]
        omega
      rw [hI]
      refine List.mem_append_left _ ?_
      rw [List.mem_range'_1, hv]
      have := (hCUne j).mpr hA
      have := hCUle j
      omega
    · have h1 : CU.getD j 0 = 0 := by
        by_contra hc
        have := (hCUne j).mp hc
        linarith
      have hv : C.getD j 0 = CL.getD j 0 + nu := by
        rw [hCval j hj, if_pos hB, h1]
        omega
      rw [hI]
      refine List.mem_append_right _ ?_
      refine List.mem_map.mpr ⟨CL.getD j 0, ?_, hv.symm⟩
      rw [List.mem_range'_1]
      have := (hCLne j).mpr hB
      have := hCLle j
      omega
  refine ⟨C, I, hres, hCl, ?_, ?_, hCiff, hCmem, ?_⟩
  · rw [hI]
    refine List.Nodup.append (List.nodup_range' _ _)
      (List.Nodup.map ?_ (List.nodup_range' _ _)) ?_
    · intro a b hab
      simpa using hab
    · intro a haU haL
      rw [List.mem_range'_1] at haU
      obtain ⟨w, hw, hweq⟩ := List.mem_map.mp haL
      rw [List.mem_range'_1] at hw
      omega
  · intro c hc
    rw [hI] at hc
    rcases List.mem_append.mp hc with h | h
    · rw [List.mem_range'_1] at h
      omega
    · obtain ⟨w, hw, hweq⟩ := List.mem_map.mp h
      rw [List.mem_range'_1] at hw
      omega
  · intro i j hA hB
    have hi : i < pmap.length := by
      by_contra hi
      rw [List.getD_eq_default _ _ (le_of_not_lt hi)] at hA
      linarith
    have hj : j < pmap.length := by
      by_contra hj
      rw [List.getD_eq_default _ _ (le_of_not_lt hj)] at hB
      linarith
    have hnBi : ¬ pmap.getD i 0 < tl := by linarith
    have h2i : CL.getD i 0 = 0 := by
      by_contra hc
      exact hnBi ((hCLne i).mp hc)
    have hvi : C.getD i 0 = CU.getD i 0 := by
      rw [hCval i hi, if_neg hnBi, h2i]
      omega
    have h1j : CU.getD j 0 = 0 := by
      by_contra hc
      have := (hCUne j).mp hc
      linarith
    have hvj : C.getD j 0 = CL.getD j 0 + nu := by
      rw [hCval j hj, if_pos hB, h1j]
      omega
    have := hCUle i
    have := (hCLne j).mpr hB
    rw [hvi, hvj]
    omega

/-- Witness for C4: the spec's two-region example — a map with one region
above `t_upper = 1` and a disjoint region below `t_lower = -1` yields exactly
the two clusters `[1, 2]` with disjoint nonzero ids. -/
theorem c4_two_tailed_disjoint_ids_witness :
    (0 : ℚ) < 1 ∧ (-1 : ℚ) < 0 ∧
    labelClusters none (some 1) (some (-1)) [2, 0, -2] = Except.ok ([1, 0, 2], [1, 2]) ∧
    (∃ cmap cids,
      labelClusters none (some 1) (some (-1)) [2, 0, -2] = Except.ok (cmap, cids) ∧
      cmap.length = ([2, 0, -2] : List ℚ).length ∧
      cids.Nodup ∧
      (∀ c ∈ cids, 0 < c) ∧
      (∀ j, cmap.getD j 0 ≠ 0 ↔
        ((1 : ℚ) < ([2, 0, -2] : List ℚ).getD j 0 ∨ ([2, 0, -2] : List ℚ).getD j 0 < -1)) ∧
      (∀ j, cmap.getD j 0 ≠ 0 → cmap.getD j 0 ∈ cids) ∧
      (∀ i j, (1 : ℚ) < ([2, 0, -2] : List ℚ).getD i 0 →
        ([2, 0, -2] : List ℚ).getD j 0 < -1 → cmap.getD i 0 ≠ cmap.getD j 0)) :=
  ⟨by norm_num, by norm_num, by decide,
   c4_two_tailed_disjoint_ids [2, 0, -2] 1 (-1) (by norm_num) (by norm_num)⟩

/-! ### Threshold validation at construction -/

/-- Claim C5 (amended): construction fails with the InvalidThreshold
ValueError exactly when `t_lower` is present and not strictly negative, or
`t_upper` is present and not strictly positive, or both are present and
`t_lower ≠ -t_upper`.  There is no check that at least one threshold is
present. -/
theorem c5_threshold_validation_iff (nFull N : ℕ) (tu tl : Option ℚ) (ct : ℚ)
    (crop : Bool) (istart istop : ℕ) (t0 dt : ℚ) :
    clusterDistInit nFull N tu tl ct crop istart istop t0 dt =
        Except.error CDErr.invalidThreshold ↔
      ((∃ v, tl = some v ∧ 0 ≤ v) ∨ (∃ v, tu = some v ∧ v ≤ 0) ∨
        (∃ u l, tu = some u ∧ tl = some l ∧ l ≠ -u)) := by
  cases tu <;> cases tl <;>
    simp only [clusterDistInit] <;>
    split_ifs <;>
    simp_all

/-- Counterexample for C5: constructing with both thresholds absent does NOT
fail — the "at least one must be present" invariant is unchecked; the missing
pair only surfaces later, as the unbound-local error inside
`_label_clusters` when `add_original` runs. -/
theorem c5_both_absent_accepted :
    (clusterDistInit 3 5 none none 0 false 0 3 0 1).toOption.isSome = true ∧
    (clusterDistInit 3 5 none none 0 false 0 3 0 1).bind
        (fun st => add_original st [0, 0, 0]) = Except.error CDErr.unboundLocal := by
  decide

/-! ### close_time handling -/

/-- Claim C10 (amended): given a threshold pair that passes the (earlier)
validation, constructing with a nonzero `close_time` raises
NotImplementedError; and every successfully constructed accumulator has
gap-closing disabled (`_close` is None), so the labeling preprocessing
always returns the raw threshold-exceedance map. -/
theorem c10_close_time_amended (nFull N : ℕ) (tu tl : Option ℚ) (ct : ℚ)
    (crop : Bool) (istart istop : ℕ) (t0 dt : ℚ) :
    ((¬ ∃ v, tl = some v ∧ 0 ≤ v) → (¬ ∃ v, tu = some v ∧ v ≤ 0) →
      (¬ ∃ u l, tu = some u ∧ tl = some l ∧ l ≠ -u) → ct ≠ 0 →
      clusterDistInit nFull N tu tl ct crop istart istop t0 dt =
        Except.error CDErr.notImplemented) ∧
    (∀ st, clusterDistInit nFull N tu tl ct crop istart istop t0 dt = Except.ok st →
      st.close = none ∧ ∀ bm, preClose st.close bm = bm) := by
  constructor
  · intro h1 h2 h3 h4
    cases tu <;> cases tl <;>
      simp only [clusterDistInit] <;>
      split_ifs <;>
      simp_all <;>
      linarith
  · intro st h
    cases tu <;> cases tl <;>
      simp only [clusterDistInit] at h <;>
      split_ifs at h <;>
      injection h with h2 <;>
      subst h2 <;>
      exact ⟨rfl, fun bm => rfl⟩

/-- Counterexample for C10: with an invalid threshold pair AND a nonzero
close_time the construction raises the threshold ValueError, not the
not-implemented error — the threshold checks run first. -/
theorem c10_invalid_threshold_precedes_close :
    clusterDistInit 3 5 (some (-1)) none 1 false 0 3 0 1 =
      Except.error CDErr.invalidThreshold := by
  decide

/-- Witness for C10: with the valid pair (1, -1) and close_time 1 the
construction raises NotImplementedError. -/
theorem c10_close_time_amended_witness :
    clusterDistInit 3 5 (some 1) (some (-1)) 1 false 0 3 0 1 =
      Except.error CDErr.notImplemented :=
  (c10_close_time_amended 3 5 (some 1) (some (-1)) 1 false 0 3 0 1).1
    (by simp) (by simp) (by simp) (by norm_num)

/-! ### Degenerate and overflow accumulator runs -/

/-- Claim C1 (code evaluation): an original map where no point exceeds either
threshold finalizes immediately with `n_clusters = 0` and `clusters = None`
(absent cluster table), but NO cluster-probability map is created —
`_finalize` returns before building `cpmap`, so accessing `cdist.cpmap`
(as the drivers do unconditionally, e.g. testnd.py line 397) fails. -/
theorem c1_zero_clusters_finalizes_without_cpmap :
    ((clusterDistInit 3 2 (some 1) (some (-1)) 0 false 0 3 0 1).bind
        (fun st => add_original st [0, 0, 0])).map
      (fun st => (st.nClusters, st.clusters, st.cpmap.isSome, st.pmapAttr.isSome))
    = Except.ok (some 0, some none, false, false) := by
  decide

/-- Claim C2 (code evaluation): with N = 1 configured permutations and one
cluster in the original map, the accumulator finalizes on the 1st `add_perm`
(dist = [3], clusters present); the 2nd `add_perm` does NOT raise — the
counter goes to -1, `dist[-1]` silently overwrites the filled slot through
numpy negative indexing (dist becomes [5]), and no error is reported.  The
RuntimeError guard sits in `_finalize`, which is no longer invoked. -/
theorem c2_add_perm_overflow_not_raised :
    clusterDistInit 2 1 (some 1) (some (-1)) 0 false 0 2 0 1 = Except.ok c2StInit ∧
    add_original c2StInit [2, 0] = Except.ok c2StA ∧
    c2StA.nClusters = some 1 ∧
    c2StA.clusters = none ∧
    add_perm c2StA [0, 3] = Except.ok c2StB ∧
    c2StB.clusters.isSome = true ∧
    c2StB.dist = [3] ∧
    c2StB.i = 0 ∧
    add_perm c2StB [5, 0] = Except.ok c2StC ∧
    c2StC.i = -1 ∧
    c2StC.dist = [5] ∧
    c2StC.clusters = c2StB.clusters := by
  refine ⟨by decide, by decide, by decide, by decide, ?_, by decide, by decide, by decide,
    ?_, by decide, by decide, by decide⟩
  · norm_num [add_perm, labelClusters, labelClusters1Tailed, preClose, label1D, label1DAux,
      npSetAt, maxAbsList, ratAbs, ratMax, clusterVs, maskMul, finalize, cropL, uncropL,
      clusterPs, percentileOfScoreMean, argsortAsc, insertByKey, cpmapCroppedDef, setWhere,
      findObject1D, timeAt, lenTime, c2StA, c2StB, c2StInit, List.range_succ,
      List.findIdx_cons, List.replicate_succ, ClusterDist.mk.injEq, ClusterTable.mk.injEq]
  · norm_num [add_perm, labelClusters, labelClusters1Tailed, preClose, label1D, label1DAux,
      npSetAt, maxAbsList, ratAbs, ratMax, clusterVs, maskMul, finalize, cropL, uncropL,
      c2StA, c2StB, c2StC, c2StInit, List.range_succ, ClusterDist.mk.injEq]

/-! ### The chunked one-sample t computation -/

/-- Claim C7 (code evaluation): the first data shape on the chunked path —
(cases = 2, 1, 2^24 + 1), with 2^25 + 2 > 2^25 elements and the largest
non-case axis in position 2 — makes the per-chunk reassembly
`v[0].swapaxes(ax, 1)` address axis 2 of a 2-dimensional t-map: an axis
error, not the unchunked result shape `[1, 2^24 + 1]`. -/
theorem c7_chunked_reassembly_axis_error :
    oneSampleTShape [2, 1, 2 ^ 24 + 1] = Except.error "AxisError" ∧
    ([2, 1, 2 ^ 24 + 1] : List ℕ).drop 1 = [1, 2 ^ 24 + 1] := by
  constructor
  · rfl
  · rfl

/-! ### Graph-connectivity merge -/

/-- Claim C3: on the 3-channel × 2-column working shape with the single
explicit edge (0, 2), any two true points at the same column whose graph
positions are joined by that edge (and are not adjacent in index order)
receive the same nonzero cluster label, a member of the returned id set; in
particular the 2-true-point map at graph indices 0 and 2 with index 1 false
(crossed with a 1-length regular axis) yields exactly one cluster, with the
merged group renumbered to the lowest id 1 and id 2 removed. -/
theorem c3_graph_edge_merge :
    (∀ f : Fin 3 → Fin 2 → Bool, ∀ c : Fin 2, ∀ r1 r2 : Fin 3,
      ((r1 : ℕ), (r2 : ℕ)) ∈ [((0 : ℕ), (2 : ℕ))] → f r1 c = true → f r2 c = true →
      (((labelGraph (finToMap3x2 f) [(0, 2)]).1.getD (r1 : ℕ) []).getD (c : ℕ) 0 =
          ((labelGraph (finToMap3x2 f) [(0, 2)]).1.getD (r2 : ℕ) []).getD (c : ℕ) 0 ∧
        ((labelGraph (finToMap3x2 f) [(0, 2)]).1.getD (r1 : ℕ) []).getD (c : ℕ) 0 ≠ 0 ∧
        ((labelGraph (finToMap3x2 f) [(0, 2)]).1.getD (r1 : ℕ) []).getD (c : ℕ) 0 ∈
          (labelGraph (finToMap3x2 f) [(0, 2)]).2)) ∧
    labelGraph [[true], [false], [true]] [(0, 2)] = ([[1], [0], [1]], [1]) := by
  constructor
  · decide
  · rfl

/-- Witness for C3 at the concrete 2-true-point map (true at graph rows 0
and 2 of column 0). -/
theorem c3_graph_edge_merge_witness :
    ((0 : ℕ), (2 : ℕ)) ∈ [((0 : ℕ), (2 : ℕ))] ∧
    c3WitnessMap 0 0 = true ∧ c3WitnessMap 2 0 = true ∧
    (((labelGraph (finToMap3x2 c3WitnessMap) [(0, 2)]).1.getD ((0 : Fin 3) : ℕ) []).getD
        ((0 : Fin 2) : ℕ) 0 =
      ((labelGraph (finToMap3x2 c3WitnessMap) [(0, 2)]).1.getD ((2 : Fin 3) : ℕ) []).getD
        ((0 : Fin 2) : ℕ) 0 ∧
      ((labelGraph (finToMap3x2 c3WitnessMap) [(0, 2)]).1.getD ((0 : Fin 3) : ℕ) []).getD
        ((0 : Fin 2) : ℕ) 0 ≠ 0 ∧
      ((labelGraph (finToMap3x2 c3WitnessMap) [(0, 2)]).1.getD ((0 : Fin 3) : ℕ) []).getD
        ((0 : Fin 2) : ℕ) 0 ∈ (labelGraph (finToMap3x2 c3WitnessMap) [(0, 2)]).2) :=
  ⟨by decide, by decide, by decide,
   c3_graph_edge_merge.1 c3WitnessMap 0 0 2 (by decide) (by decide) (by decide)⟩

/-! ### The one-sample driver and the statistic formulas -/

/-- Claim C6 (code evaluation): the one-sample branch of `ttest.__init__`
with a permutation sample count requested does not construct a
`_ClusterDist` — the branch never assigns the local `cdist`, and the
unconditional `self.diff_cl = [diff, cdist.cpmap]` at line 397 then raises
UnboundLocalError instead of exposing cluster results. -/
theorem c6_one_sample_samples_unbound_cdist :
    ttestOneSampleInit [[1], [2]] 0 200 = Except.error TtestErr.unboundLocalCdist := by
  rfl

/-- Claim C9: `_t_ind` computes, elementwise at every position, exactly the
pooled-variance formula `t = (mean(a) - mean(b)) / sqrt(svar * (1/n1 + 1/n2))`
with `svar = ((n1-1)*var(a) + (n2-1)*var(b)) / (n1+n2-2)` and `var` the
sample variance with divisor n-1, where a and b are the first n1 and last n2
cases. -/
theorem c9_t_ind_pooled_formula (x : List (List ℝ)) (n1 n2 : ℕ)
    (h1 : 2 ≤ n1) (h2 : 2 ≤ n2) (hx : x.length = n1 + n2) :
    ∀ j, t_ind x n1 n2 j =
      specPooledT ((x.take n1).map (fun r => r.getD j 0))
        ((x.drop n1).map (fun r => r.getD j 0)) := by
  intro j
  have hta : (x.take n1).length = n1 := by
    rw [List.length_take]
    omega
  have htb : (x.drop n1).length = n2 := by
    rw [List.length_drop, hx]
    omega
  simp only [t_ind, specPooledT, specMean, specSampleVar, npMean0, npVar0,
    List.map_map, List.length_map, Function.comp_def, hta, htb]

/-- Witness for C9 at a 2 + 2 case input. -/
theorem c9_t_ind_pooled_formula_witness :
    2 ≤ 2 ∧ ([[1], [2], [3], [4]] : List (List ℝ)).length = 2 + 2 ∧
    (∀ j, t_ind [[1], [2], [3], [4]] 2 2 j =
      specPooledT ((([[1], [2], [3], [4]] : List (List ℝ)).take 2).map (fun r => r.getD j 0))
        ((([[1], [2], [3], [4]] : List (List ℝ)).drop 2).map (fun r => r.getD j 0))) :=
  ⟨by norm_num, by norm_num,
   c9_t_ind_pooled_formula [[1], [2], [3], [4]] 2 2 (by norm_num) (by norm_num) (by norm_num)⟩

/-! ### Crop / uncrop round trip -/

theorem getD_append_left {α : Type _} (l1 l2 : List α) (p : ℕ) (d : α) (h : p < l1.length) :
    (l1 ++ l2).getD p d = l1.getD p d := by
  induction l1 generalizing p with
  | nil => cases h
  | cons a as ih =>
    cases p with
    | zero => rfl
    | succ k => exact ih k (by simpa using h)

theorem getD_append_right {α : Type _} (l1 l2 : List α) (p : ℕ) (d : α)
    (h : l1.length ≤ p) : (l1 ++ l2).getD p d = l2.getD (p - l1.length) d := by
  induction l1 generalizing p with
  | nil => simp
  | cons a as ih =>
    cases p with
    | zero => cases h
    | succ k =>
      simp only [List.cons_append, List.getD_cons_succ, List.length_cons]
      rw [ih k (by simpa using h)]
      congr 1
      omega

theorem getD_replicate {α : Type _} (k : ℕ) (bg d : α) (p : ℕ) (h : p < k) :
    (List.replicate k bg).getD p d = bg := by
  induction k generalizing p with
  | zero => cases h
  | succ m ih =>
    cases p with
    | zero => rfl
    | succ q => exact ih q (by omega)

theorem setWhere_length (acc : List ℚ) (cmap : List ℕ) (cid : ℕ) (p : ℚ) :
    (setWhere acc cmap cid p).length = min acc.length cmap.length :=
  List.length_zipWith _ _ _

theorem foldl_setWhere_length (cmap : List ℕ) (cids : List ℕ) (clusterP : List ℚ)
    (l : List ℕ) : ∀ acc : List ℚ, acc.length = cmap.length →
    (l.foldl (fun acc ci => setWhere acc cmap (cids.getD ci 0) (clusterP.getD ci 0))
        acc).length = cmap.length := by
  induction l with
  | nil =>
    intro acc h
    simpa using h
  | cons a as ih =>
    intro acc h
    rw [List.foldl_cons]
    refine ih _ ?_
    rw [setWhere_length, h]
    omega

theorem cpmapCroppedDef_length (pmapC : List ℚ) (cmap : List ℕ) (cids : List ℕ)
    (clusterP : List ℚ) (sortIdx : List ℕ) (h : cmap.length = pmapC.length) :
    (cpmapCroppedDef pmapC cmap cids clusterP sortIdx).length = pmapC.length := by
  rw [cpmapCroppedDef, foldl_setWhere_length cmap cids clusterP sortIdx _ (by simp [h]), h]

/-- Claim C8: for a finalized accumulator with an analysis window strictly
inside the full range, the uncropped cluster-probability map holds the
background 1 at every position outside the window and exactly the values of
the cropped probability map inside it; every per-cluster masked statistic
map holds background 0 outside the window and the mask-multiplied cropped
statistic values inside it. -/
theorem c8_crop_uncrop_background (st : ClusterDist) (pmap : List ℚ) (cmap : List ℕ)
    (cids : List ℕ)
    (hcrop : st.crop = true) (h1 : st.istart ≤ st.istop) (h2 : st.istop ≤ st.nFull)
    (hi : 0 ≤ st.i)
    (hp : st.originalPmap = some pmap) (hlen : pmap.length = st.nFull)
    (hcm : st.clusterIm = some cmap) (hcml : cmap.length = st.istop - st.istart)
    (hcs : st.cids = some cids) (hnc : st.nClusters = some cids.length) (hne : cids ≠ []) :
    ∃ st2 cpm tbl, finalize st = Except.ok st2 ∧
      st2.cpmap = some cpm ∧ st2.clusters = some (some tbl) ∧
      cpm.length = st.nFull ∧
      (∀ p, p < st.istart ∨ (st.istop ≤ p ∧ p < st.nFull) → cpm.getD p 0 = 1) ∧
      (∀ p, st.istart ≤ p → p < st.istop →
        cpm.getD p 0 =
          (cpmapCroppedDef (cropL st pmap) cmap cids
              (clusterPs st.dist (clusterVs (cropL st pmap) cmap cids))
              (argsortAsc (clusterPs st.dist (clusterVs (cropL st pmap) cmap cids)))).getD
            (p - st.istart) 0) ∧
      (∀ cm ∈ tbl.clusterMaps,
        (∀ p, p < st.istart ∨ (st.istop ≤ p ∧ p < st.nFull) → cm.getD p 0 = 0) ∧
        ∃ cid, ∀ p, st.istart ≤ p → p < st.istop →
          cm.getD p 0 = (maskMul (cropL st pmap) cmap cid).getD (p - st.istart) 0) := by
  have hnz : ¬ cids.length = 0 := by
    intro h0
    exact hne (List.length_eq_zero.mp h0)
  have hLc : (cropL st pmap).length = st.istop - st.istart := by
    rw [cropL, if_pos hcrop, List.length_take, List.length_drop, hlen]
    omega
  have hcpl : (cpmapCroppedDef (cropL st pmap) cmap cids
      (clusterPs st.dist (clusterVs (cropL st pmap) cmap cids))
      (argsortAsc (clusterPs st.dist (clusterVs (cropL st pmap) cmap cids)))).length =
      st.istop - st.istart := by
    rw [cpmapCroppedDef_length _ _ _ _ _ (by rw [hcml, hLc]), hLc]
  rw [finalize, if_neg (not_lt.mpr hi), hp, hcm, hcs, hnc]
  simp only [hnz, if_false]
  refine ⟨_, _, _, rfl, rfl, rfl, ?_, ?_, ?_, ?_⟩
  · rw [uncropL, if_pos hcrop]
    simp only [List.length_append, List.length_replicate, hcpl]
    omega
  · intro p hpp
    rw [uncropL, if_pos hcrop]
    rcases hpp with hlt | ⟨hge, hltn⟩
    · rw [getD_append_left _ _ _ _
            (by simp only [List.length_append, List.length_replicate, hcpl]; omega),
          getD_append_left _ _ _ _ (by simp only [List.length_replicate]; omega)]
      exact getD_replicate _ _ _ _ hlt
    · rw [getD_append_right _ _ _ _
            (by simp only [List.length_append, List.length_replicate, hcpl]; omega)]
      exact getD_replicate _ _ _ _
        (by simp only [List.length_append, List.length_replicate, hcpl]; omega)
  · intro p hge hlt
    rw [uncropL, if_pos hcrop,
        getD_append_left _ _ _ _
          (by simp only [List.length_append, List.length_replicate, hcpl]; omega),
        getD_append_right _ _ _ _ (by simp only [List.length_replicate]; omega)]
    congr 1
    simp
  · intro cm hcmm
    simp only [List.mem_map] at hcmm
    obtain ⟨ci, hci, hcmeq⟩ := hcmm
    have hml : (maskMul (cropL st pmap) cmap (cids.getD ci 0)).length =
        st.istop - st.istart := by
      rw [maskMul, List.length_zipWith, hLc, hcml]
      omega
    constructor
    · intro p hpp
      rw [hcmeq.symm, uncropL, if_pos hcrop]
      rcases hpp with hlt | ⟨hge, hltn⟩
      · rw [getD_append_left _ _ _ _
              (by simp only [List.length_append, List.length_replicate, hml]; omega),
            getD_append_left _ _ _ _ (by simp only [List.length_replicate]; omega)]
        exact getD_replicate _ _ _ _ hlt
      · rw [getD_append_right _ _ _ _
              (by simp only [List.length_append, List.length_replicate, hml]; omega)]
        exact getD_replicate _ _ _ _
          (by simp only [List.length_append, List.length_replicate, hml]; omega)
    · refine ⟨cids.getD ci 0, ?_⟩
      intro p hge hlt
      rw [hcmeq.symm, uncropL, if_pos hcrop,
          getD_append_left _ _ _ _
            (by simp only [List.length_append, List.length_replicate, hml]; omega),
          getD_append_right _ _ _ _ (by simp only [List.length_replicate]; omega)]
      congr 1
      simp

/-- Witness for C8 at the concrete cropped state `c8State` (window [1, 3)
inside a 4-sample axis). -/
theorem c8_crop_uncrop_background_witness :
    c8State.crop = true ∧ (0 : ℤ) ≤ c8State.i ∧
    (∃ st2 cpm tbl, finalize c8State = Except.ok st2 ∧
      st2.cpmap = some cpm ∧ st2.clusters = some (some tbl) ∧
      cpm.length = c8State.nFull ∧
      (∀ p, p < c8State.istart ∨ (c8State.istop ≤ p ∧ p < c8State.nFull) →
        cpm.getD p 0 = 1) ∧
      (∀ p, c8State.istart ≤ p → p < c8State.istop →
        cpm.getD p 0 =
          (cpmapCroppedDef (cropL c8State [0, 2, 0, 0]) [1, 0] [1]
              (clusterPs c8State.dist (clusterVs (cropL c8State [0, 2, 0, 0]) [1, 0] [1]))
              (argsortAsc (clusterPs c8State.dist
                (clusterVs (cropL c8State [0, 2, 0, 0]) [1, 0] [1])))).getD
            (p - c8State.istart) 0) ∧
      (∀ cm ∈ tbl.clusterMaps,
        (∀ p, p < c8State.istart ∨ (c8State.istop ≤ p ∧ p < c8State.nFull) →
          cm.getD p 0 = 0) ∧
        ∃ cid, ∀ p, c8State.istart ≤ p → p < c8State.istop →
          cm.getD p 0 = (maskMul (cropL c8State [0, 2, 0, 0]) [1, 0] cid).getD
            (p - c8State.istart) 0)) :=
  ⟨rfl, by decide,
   c8_crop_uncrop_background c8State [0, 2, 0, 0] [1, 0] [1] rfl (by decide) (by decide)
     (by decide) rfl (by decide) rfl (by decide) rfl rfl (by decide)⟩

end Eelbrain


